import Mathlib

/-!
Shallow Lean embedding of the voice-classification and voice-decomposition
core of `src/python_service/music_processor.py` (class `MusicProcessor`),
together with theorems settling the frozen claims about it.

Modelling conventions:
* Python strings are `String` / `List Char`; only the ASCII behaviour of
  `str.lower`, `str.strip`, `int(...)` and the regex word boundary `\b`
  (word characters `[a-zA-Z0-9_]`) is modelled, which covers every string
  the claims mention.
* Python floats are modelled as `ℚ`.  Every score compared against the
  default threshold `float("0.3")` is a ratio `a / b` of integers with
  `b ≤ 128`; the closest such ratio to `3/10` other than `3/10` itself is
  at distance `≥ 1/1280`, far above double rounding error, and `a / b` with
  `a, b` small is correctly rounded, so `score > 0.3` in IEEE doubles and
  `score > 3/10` in `ℚ` decide identically on every reachable input.
* MIDI pitches are `Int` (music21 `pitch.midi` values), durations are `ℚ`
  (music21 `quarterLength` values).
-/

/-! ### Python string primitives -/

/-- Model of `str.lower` (ASCII). -/
def pyLower (s : List Char) : List Char := s.map Char.toLower

/-- ASCII whitespace recognised by `str.strip`. -/
def isPySpace (c : Char) : Bool :=
  c = ' ' || c = '\t' || c = '\n' || c = '\r' || c = '\x0b' || c = '\x0c'

/-- Model of `str.strip` (ASCII whitespace). -/
def pyStrip (s : List Char) : List Char :=
  ((s.dropWhile isPySpace).reverse.dropWhile isPySpace).reverse

/-- Model of `part_name.lower().strip()` at the top of `_detect_voice_type`. -/
def normalizeName (s : String) : List Char := pyStrip (pyLower s.data)

/-- A regex word character (`\w` / the characters delimited by `\b`): ASCII model. -/
def isWordChar (c : Char) : Bool := c.isAlpha || c.isDigit || c = '_'

/-- `kw` begins the character list `s`. -/
def listStartsWith : List Char → List Char → Bool
  | [], _ => true
  | _ :: _, [] => false
  | c :: cs, d :: ds => c = d && listStartsWith cs ds

/-- The keyword `kw` (which starts and ends with word characters) matches at the
head of `s` with a `\b` boundary on both sides; `prev` is the character to the
left of the current position, if any. -/
def boundaryMatchAt (prev : Option Char) (kw s : List Char) : Bool :=
  listStartsWith kw s &&
  (match prev with
   | none => true
   | some c => !isWordChar c) &&
  (match s.drop kw.length with
   | [] => true
   | c :: _ => !isWordChar c)

/-- Scan of `re.search(r"\b<kw>\b", s)`: try every position. -/
def wordSearchAux (kw : List Char) : Option Char → List Char → Bool
  | prev, [] => boundaryMatchAt prev kw []
  | prev, c :: rest =>
    boundaryMatchAt prev kw (c :: rest) || wordSearchAux kw (some c) rest

/-- Model of `re.search(r"\b<kw>\b", s) is not None` for a keyword made of
word characters. -/
def wordSearch (kw : String) (s : List Char) : Bool :=
  wordSearchAux kw.data none s

/-- Model of `re.search(r"^<c>(?=[.\d]|$)", s) is not None`: the string starts
with the letter `c` and the next character, if any, is a period or a digit. -/
def leadingLetter (c : Char) : List Char → Bool
  | [] => false
  | x :: rest =>
    x = c &&
    (match rest with
     | [] => true
     | y :: _ => y = '.' || y.isDigit)

/-! ### Name-pattern layer of `_detect_voice_type` (source lines 534-546) -/

def sopranoNameMatch (s : List Char) : Bool :=
  wordSearch "soprano" s || wordSearch "sop" s || wordSearch "sopr" s ||
  leadingLetter 's' s

def altoNameMatch (s : List Char) : Bool :=
  wordSearch "alto" s || wordSearch "alt" s || wordSearch "contr" s ||
  wordSearch "counter" s || leadingLetter 'a' s

def tenorNameMatch (s : List Char) : Bool :=
  wordSearch "tenor" s || wordSearch "ten" s || leadingLetter 't' s

def bassNameMatch (s : List Char) : Bool :=
  wordSearch "bass" s || wordSearch "bas" s || wordSearch "bari" s ||
  wordSearch "baritone" s || wordSearch "bar" s || leadingLetter 'b' s

/-- Layer 1 of `_detect_voice_type`: first matching category wins, `none`
when no keyword set matches the (lowered, stripped) part name. -/
def nameDetect (s : List Char) : Option String :=
  if sopranoNameMatch s then some "soprano"
  else if altoNameMatch s then some "alto"
  else if tenorNameMatch s then some "tenor"
  else if bassNameMatch s then some "bass"
  else none

/-! ### Configuration (`MusicProcessor.__init__` and `_parse_range`) -/

/-- Model of `str.split(',')`: always returns at least one (possibly empty) field. -/
def splitOnComma : List Char → List (List Char)
  | [] => [[]]
  | c :: rest =>
    if c = ',' then [] :: splitOnComma rest
    else
      match splitOnComma rest with
      | [] => [[c]]
      | p :: ps => (c :: p) :: ps

/-- Digit run with optional single underscores between digits, as accepted by
Python `int` after the sign: `digitRunAux prevDigit s`. -/
def digitRunAux : Bool → List Char → Bool
  | _, [] => true
  | prevDigit, c :: rest =>
    if c.isDigit then digitRunAux true rest
    else if c = '_' then
      prevDigit &&
      (match rest with
       | [] => false
       | d :: _ => d.isDigit) &&
      digitRunAux false rest
    else false

/-- The character list is a valid Python integer digit sequence (ASCII). -/
def isPyDigits (s : List Char) : Bool :=
  match s with
  | [] => false
  | c :: _ => c.isDigit && digitRunAux false s

/-- Numeric value of a digit sequence, skipping grouping underscores. -/
def digitsToNat (s : List Char) : Nat :=
  s.foldl (fun acc c => if c.isDigit then acc * 10 + (c.toNat - 48) else acc) 0

/-- Model of Python `int(s)` on a str argument: `some n` when it succeeds,
`none` when it raises `ValueError`. -/
def pyInt (s : List Char) : Option Int :=
  let t := pyStrip s
  match t with
  | '+' :: rest => if isPyDigits rest then some (digitsToNat rest : Int) else none
  | '-' :: rest => if isPyDigits rest then some (-(digitsToNat rest : Int)) else none
  | _ => if isPyDigits t then some (digitsToNat t : Int) else none

/-- Model of `MusicProcessor._parse_range`: split on commas, convert the first
two fields with `int`; any `ValueError`/`IndexError` yields the logged-warning
default `(0, 127)`.  Total: it never raises. -/
def parseRange (s : String) : Int × Int :=
  match splitOnComma s.data with
  | p0 :: p1 :: _ =>
    match pyInt p0, pyInt p1 with
    | some a, some b => (a, b)
    | _, _ => (0, 127)
  | _ => (0, 127)

/-- The per-category configuration built in `MusicProcessor.__init__`:
`VOICE_RANGES` (inclusive MIDI bounds) and `OVERLAP_THRESHOLD`. -/
structure ProcessorConfig where
  sopranoRange : Int × Int
  altoRange : Int × Int
  tenorRange : Int × Int
  bassRange : Int × Int
  overlapThreshold : ℚ
  deriving DecidableEq, Repr

/-- The configuration obtained with no environment overrides: the default
range strings fed through `_parse_range`, and `float("0.3")`. -/
def defaultConfig : ProcessorConfig :=
  { sopranoRange := parseRange "60,81"
    altoRange := parseRange "55,74"
    tenorRange := parseRange "48,67"
    bassRange := parseRange "40,60"
    overlapThreshold := 3 / 10 }

/-- `self.VOICE_RANGES` as the insertion-ordered association list iterated by
`_detect_voice_type` (Python dicts preserve insertion order). -/
def voiceRangesList (cfg : ProcessorConfig) : List (String × Int × Int) :=
  [("soprano", cfg.sopranoRange), ("alto", cfg.altoRange),
   ("tenor", cfg.tenorRange), ("bass", cfg.bassRange)]

/-! ### Layers 2-4 of `_detect_voice_type` (source lines 548-595) -/

/-- Layer 2, the stem-position hint: consulted only when `voice_position` was
supplied.  Mirrors the `if`/`elif` chain on `clef_type` exactly, including its
treatment of `"unknown"` as a treble-family clef. -/
def stemPositionLayer (clefType : String) (voicePosition : Option Int) : Option String :=
  match voicePosition with
  | none => none
  | some pos =>
    if clefType = "treble" ∨ clefType = "treble8vb" ∨ clefType = "unknown" then
      some (if pos = 1 then "soprano" else "alto")
    else if clefType = "bass" then
      some (if pos = 1 then "tenor" else "bass")
    else if clefType = "tenor_c" then
      some "tenor"
    else none

/-- One iteration of the `for voice_type, (voice_min, voice_max) in
self.VOICE_RANGES.items()` loop: update `(best_match, best_score)`.  The
division is reached only inside the `overlap_max >= overlap_min` guard. -/
def overlapStep (minPitch maxPitch : Int) (acc : String × ℚ) (e : String × Int × Int) :
    String × ℚ :=
  let overlapMin := max minPitch e.2.1
  let overlapMax := min maxPitch e.2.2
  if overlapMin ≤ overlapMax then
    let score : ℚ := ((overlapMax - overlapMin : Int) : ℚ) / ((maxPitch - minPitch : Int) + 1 : ℚ)
    if acc.2 < score then (e.1, score) else acc
  else acc

/-- The full scoring loop, starting from `best_match = OTHER, best_score = 0.0`. -/
def overlapBest (cfg : ProcessorConfig) (minPitch maxPitch : Int) : String × ℚ :=
  (voiceRangesList cfg).foldl (overlapStep minPitch maxPitch) ("other", 0)

/-- Layer 3, pitch-range overlap scoring (guarded by `if pitch_range:`;
a tuple is always truthy, `None` is falsy).  Returns `none` when the layer
falls through to the clef fallback. -/
def pitchRangeLayer (cfg : ProcessorConfig) (clefType : String) :
    Option (Int × Int) → Option String
  | none => none
  | some pr =>
    let best := overlapBest cfg pr.1 pr.2
    if cfg.overlapThreshold < best.2 then some best.1
    else if cfg.overlapThreshold / 2 < best.2 then
      if (best.1 = "soprano" ∨ best.1 = "alto") ∧
         (clefType = "treble" ∨ clefType = "treble8vb" ∨ clefType = "alto") then
        some best.1
      else if (best.1 = "tenor" ∨ best.1 = "bass") ∧
         (clefType = "bass" ∨ clefType = "tenor_c") then
        some best.1
      else none
    else none

/-- Layer 4, `clef_defaults.get(clef_type, VoiceType.OTHER)`. -/
def clefDefaults (clefType : String) : String :=
  if clefType = "treble" then "soprano"
  else if clefType = "treble8vb" then "tenor"
  else if clefType = "bass" then "bass"
  else if clefType = "alto" then "alto"
  else if clefType = "tenor_c" then "tenor"
  else "other"

/-- Model of `MusicProcessor._detect_voice_type`: the layered classifier.
Each layer short-circuits exactly as the sequence of early `return`s does. -/
def detectVoiceType (cfg : ProcessorConfig) (partName clefType : String)
    (pitchRange : Option (Int × Int)) (voicePosition : Option Int) : String :=
  match nameDetect (normalizeName partName) with
  | some v => v
  | none =>
    match stemPositionLayer clefType voicePosition with
    | some v => v
    | none =>
      match pitchRangeLayer cfg clefType pitchRange with
      | some v => v
      | none => clefDefaults clefType

/-! ### Score data model (the music21 object graph, as consumed by the core)

A music21 `Voice` is modelled by the *result* of `int(voice.id)`: `some n`
when the id converts, `none` when `int` raises `ValueError`/`TypeError`.
Durations and measure `duration.quarterLength` values are `ℚ`.  music21
streams define `len`, so an *empty* `Voice` object is falsy in Python; the
extraction model reproduces that. -/

inductive ClefKind
  | treble
  | treble8vb
  | bassClef
  | altoClef
  | tenorC
  | otherClef
  deriving DecidableEq, Repr

/-- Structural measure attributes copied by `_extract_voice_as_part`
(`Clef`, `KeySignature`, `TimeSignature`, `Barline`). -/
inductive MAttr
  | clefAttr (k : ClefKind)
  | keySigAttr
  | timeSigAttr
  | barlineAttr
  deriving DecidableEq, Repr

/-- A note/chord or rest event.  `noteE` with one pitch models `note.Note`,
with several pitches `chord.Chord`; `restE` models `note.Rest`. -/
inductive MElem
  | noteE (pitches : List Int) (dur : ℚ)
  | restE (dur : ℚ)
  deriving DecidableEq, Repr

/-- A `stream.Voice`: `vid` is the result of `int(voice.id)`. -/
structure MVoice where
  vid : Option Int
  elems : List MElem
  deriving DecidableEq, Repr

/-- A `stream.Measure`: reported `duration.quarterLength`, structural
attributes, named voices, and measure-level events outside any voice. -/
structure MMeasure where
  duration : ℚ
  attrs : List MAttr
  voices : List MVoice
  elems : List MElem
  deriving DecidableEq, Repr

/-- A `stream.Part`: optional display name, whether `part.transposition`
is not `None`, and its measures. -/
structure MPart where
  partName : Option String
  hasTranspose : Bool
  measures : List MMeasure
  deriving DecidableEq, Repr

/-- A `stream.Score` as a sequence of parts. -/
structure MScore where
  parts : List MPart
  deriving DecidableEq, Repr

/-- Self-contained `flatMap` (kept local so its lemmas are era-stable). -/
def concatMap (f : α → List β) : List α → List β
  | [] => []
  | x :: xs => f x ++ concatMap f xs

/-- Self-contained `enumerate(xs, start = n)`. -/
def enumFrom (n : Nat) : List α → List (Nat × α)
  | [] => []
  | x :: xs => (n, x) :: enumFrom (n + 1) xs

/-! ### Staff topology helpers (source lines 277-347) -/

/-- Insert into a strictly ascending list, ignoring duplicates. -/
def insertSortedUnique (x : Int) : List Int → List Int
  | [] => [x]
  | y :: ys =>
    if x = y then y :: ys
    else if x < y then x :: y :: ys
    else y :: insertSortedUnique x ys

/-- `sorted(set(l))` for integer ids. -/
def sortedUnique (l : List Int) : List Int := l.foldr insertSortedUnique []

/-- Model of `_get_voice_ids`: sorted set of numeric voice ids appearing in
any measure; a voice whose id does not convert to `int` is silently skipped. -/
def getVoiceIds (p : MPart) : List Int :=
  sortedUnique (concatMap (fun m => m.voices.filterMap (fun v => v.vid)) p.measures)

/-- The first voice of a measure whose id converts to `voiceId` (the inner
`for v in element.voices: ... break` search; conversion failures skipped). -/
def findVoice (m : MMeasure) (voiceId : Int) : Option MVoice :=
  m.voices.find? (fun v => v.vid = some voiceId)

/-- Model of `_get_voice_flat_notes`: per measure, the notes and rests of the
first voice matching `voiceId`, nothing when the measure lacks it. -/
def getVoiceFlatNotes (p : MPart) (voiceId : Int) : List MElem :=
  concatMap
    (fun m =>
      match findVoice m voiceId with
      | some v => v.elems
      | none => [])
    p.measures

/-- Duration contributed by one event. -/
def elemDur : MElem → ℚ
  | .noteE _ d => d
  | .restE d => d

/-- Total duration of sequentially appended events (music21 measure duration
after `append`). -/
def elemsDur (l : List MElem) : ℚ := (l.map elemDur).sum

/-- `element.duration.quarterLength or 4.0`: `0.0` is falsy in Python. -/
def fillerDur (m : MMeasure) : ℚ := if m.duration = 0 then 4 else m.duration

/-- The attribute-copy loop of `_extract_voice_as_part`: one class at a time,
so clefs come first, then key signatures, time signatures, barlines. -/
def copyStructuralAttrs (l : List MAttr) : List MAttr :=
  l.filter (fun a => match a with | .clefAttr _ => true | _ => false) ++
  l.filter (fun a => match a with | .keySigAttr => true | _ => false) ++
  l.filter (fun a => match a with | .timeSigAttr => true | _ => false) ++
  l.filter (fun a => match a with | .barlineAttr => true | _ => false)

/-- Per-measure body of `_extract_voice_as_part`.  `if target_voice:` is
Python truthiness: a missing voice *and* a present-but-empty voice both take
the filler-rest branch (music21 streams define `len`).  The new measure's
duration is derived from its appended contents. -/
def extractVoiceMeasure (voiceId : Int) (m : MMeasure) : MMeasure :=
  match findVoice m voiceId with
  | some v =>
    if v.elems.isEmpty then
      { duration := fillerDur m, attrs := copyStructuralAttrs m.attrs,
        voices := [], elems := [.restE (fillerDur m)] }
    else
      { duration := elemsDur v.elems, attrs := copyStructuralAttrs m.attrs,
        voices := [], elems := v.elems }
  | none =>
    { duration := fillerDur m, attrs := copyStructuralAttrs m.attrs,
      voices := [], elems := [.restE (fillerDur m)] }

/-- Model of `_extract_voice_as_part`: a new part with the same name and one
new measure per source measure, in order.  (Part-level elements other than
measures and voices are passed through by the source; they are not part of
this model, whose parts consist of measures.) -/
def extractVoiceAsPart (p : MPart) (voiceId : Int) : MPart :=
  { partName := p.partName
    hasTranspose := false
    measures := p.measures.map (extractVoiceMeasure voiceId) }

/-- Sum of the reported measure durations of a part. -/
def partTotalDuration (p : MPart) : ℚ := (p.measures.map (fun m => m.duration)).sum

/-! ### Clef and pitch-range analysis (source lines 442-514) -/

/-- The `isinstance` chain of `_detect_clef`, subclass `Treble8vbClef`
checked before its parent `TrebleClef`; any other clef class falls off the
chain and yields `"unknown"`. -/
def clefKindToString : ClefKind → String
  | .treble8vb => "treble8vb"
  | .treble => "treble"
  | .bassClef => "bass"
  | .altoClef => "alto"
  | .tenorC => "tenor_c"
  | .otherClef => "unknown"

/-- All clef objects of a part's flattened stream, in measure order. -/
def partClefs (p : MPart) : List ClefKind :=
  concatMap
    (fun m => m.attrs.filterMap (fun a => match a with | .clefAttr k => some k | _ => none))
    p.measures

/-- Model of `_detect_clef`: classify the first clef found, else `"unknown"`. -/
def detectClef (p : MPart) : String :=
  match partClefs p with
  | [] => "unknown"
  | k :: _ => clefKindToString k

/-- Pitches of one event: a `Note` contributes its pitch, a `Chord` all of
its pitches, a `Rest` nothing. -/
def elemPitches : MElem → List Int
  | .noteE ps _ => ps
  | .restE _ => []

/-- All notes-and-rests of a part's flattened stream (measure-level events
and the events inside every voice). -/
def partFlatElems (p : MPart) : List MElem :=
  concatMap (fun m => m.elems ++ concatMap (fun v => v.elems) m.voices) p.measures

/-- Model of `_analyze_pitch_range_from_elements`: apply the octave
correction to every pitch, then take `(min, max)`; `none` when the element
list has no pitches. -/
def analyzePitchRangeFromElements (elems : List MElem) (corr : Int) :
    Option (Int × Int) :=
  match (concatMap elemPitches elems).map (fun p => p + corr) with
  | [] => none
  | x :: xs => some (xs.foldl min x, xs.foldl max x)

/-- Model of `_analyze_pitch_range` on a flattened part. -/
def analyzePitchRange (p : MPart) (corr : Int) : Option (Int × Int) :=
  analyzePitchRangeFromElements (partFlatElems p) corr

/-- The octave correction computed in `analyze_musicxml` (source lines
373-376): `-12` for an octave-transposing treble clef with no explicit
notated transposition, else `0`. -/
def octaveCorrection (clefType : String) (hasTranspose : Bool) : Int :=
  if clefType = "treble8vb" ∧ hasTranspose = false then -12 else 0

/-! ### `analyze_musicxml` (source lines 349-440) -/

/-- One entry of the `parts` list returned by `analyze_musicxml`. -/
structure PartInfo where
  index : Nat
  partIndex : Nat
  voiceId : Option Int
  name : String
  clefType : String
  pitchRange : Option (Int × Int)
  detectedVoice : String
  noteCount : Nat
  scoreFormat : String
  deriving DecidableEq, Repr

/-- `part.partName or f"Part {part_idx + 1}"` (`None` and `""` are falsy). -/
def partNameOrDefault (p : MPart) (partIdx : Nat) : String :=
  match p.partName with
  | some n => if n = "" then "Part " ++ toString (partIdx + 1) else n
  | none => "Part " ++ toString (partIdx + 1)

/-- The inferred display-name table for short-score voices. -/
def inferredVoiceName (clefType : String) (voicePosition : Nat) (voiceId : Int) : String :=
  if clefType = "treble" ∧ voicePosition = 1 then "Soprano"
  else if clefType = "treble" ∧ voicePosition = 2 then "Alto"
  else if clefType = "treble8vb" ∧ voicePosition = 1 then "Soprano"
  else if clefType = "treble8vb" ∧ voicePosition = 2 then "Alto"
  else if clefType = "bass" ∧ voicePosition = 1 then "Tenor"
  else if clefType = "bass" ∧ voicePosition = 2 then "Bass"
  else "Voice " ++ toString voiceId

/-- Whether an event counts for `note_count` (a `Note` or `Chord`). -/
def isNoteOrChord : MElem → Bool
  | .noteE _ _ => true
  | .restE _ => false

/-- The `analyze_musicxml` body for one part (linear indices filled in by the
caller): multi-voice parts expand to one entry per sorted voice id with
`voice_position` starting at 1, single-voice parts to one open-score entry. -/
def analyzePartEntries (cfg : ProcessorConfig) (partIdx : Nat) (p : MPart) :
    List PartInfo :=
  let pname := partNameOrDefault p partIdx
  let clefType := detectClef p
  let corr := octaveCorrection clefType p.hasTranspose
  let vids := getVoiceIds p
  if vids.length > 1 then
    (enumFrom 1 vids).map (fun pos_vid =>
      let voicePosition := pos_vid.1
      let vid := pos_vid.2
      let velems := getVoiceFlatNotes p vid
      let prange := analyzePitchRangeFromElements velems corr
      let inferred := inferredVoiceName clefType voicePosition vid
      let vname := pname ++ " (" ++ inferred ++ ")"
      { index := 0, partIndex := partIdx, voiceId := some vid, name := vname,
        clefType := clefType, pitchRange := prange,
        detectedVoice := detectVoiceType cfg vname clefType prange (some (voicePosition : Int)),
        noteCount := (velems.filter isNoteOrChord).length,
        scoreFormat := "short_score" })
  else
    [{ index := 0, partIndex := partIdx, voiceId := none, name := pname,
       clefType := clefType, pitchRange := analyzePitchRange p corr,
       detectedVoice := detectVoiceType cfg pname clefType (analyzePitchRange p corr) none,
       noteCount := ((partFlatElems p).filter isNoteOrChord).length,
       scoreFormat := "open_score" }]

/-- The result dictionary of `analyze_musicxml`. -/
structure AnalysisResult where
  parts : List PartInfo
  totalParts : Nat
  deriving DecidableEq, Repr

/-- Model of `analyze_musicxml` on an already-parsed score: expand every part
and assign the dense linear indices `0, 1, 2, …` in order. -/
def analyzeMusicxml (cfg : ProcessorConfig) (s : MScore) : AnalysisResult :=
  let entries := concatMap (fun ip => analyzePartEntries cfg ip.1 ip.2) (enumFrom 0 s.parts)
  let indexed := (enumFrom 0 entries).map (fun ie => { ie.2 with index := ie.1 })
  { parts := indexed, totalParts := indexed.length }

/-! ### `_build_voice_index_map` and `generate_midi_files` (source lines 597-702) -/

/-- Model of `_build_voice_index_map`: insertion-ordered mapping from the
string linear index to `(part_idx, voice_id)`. -/
def buildVoiceIndexMapAux : Nat → Nat → List MPart → List (String × Nat × Option Int)
  | _, _, [] => []
  | linearIdx, partIdx, p :: ps =>
    let vids := getVoiceIds p
    if vids.length > 1 then
      (enumFrom 0 vids).map (fun iv => (toString (linearIdx + iv.1), partIdx, some iv.2)) ++
        buildVoiceIndexMapAux (linearIdx + vids.length) (partIdx + 1) ps
    else
      (toString linearIdx, partIdx, none) :: buildVoiceIndexMapAux (linearIdx + 1) (partIdx + 1) ps

def buildVoiceIndexMap (s : MScore) : List (String × Nat × Option Int) :=
  buildVoiceIndexMapAux 0 0 s.parts

/-- `voice_assignments.get(str_idx, …, VoiceType.OTHER)`.  (Assignments are
modelled with string keys only: the HTTP layer validates every key as a
string, making the source's secondary integer-key lookup a no-op.) -/
def lookupAssignment (assign : List (String × String)) (key : String) : String :=
  match assign.find? (fun kv => kv.1 = key) with
  | some kv => kv.2
  | none => "other"

/-- `voice_parts.setdefault(voice_type, []).append(part_stream)` on an
insertion-ordered association list. -/
def addToGroup (groups : List (String × List MPart)) (key : String) (p : MPart) :
    List (String × List MPart) :=
  match groups with
  | [] => [(key, [p])]
  | g :: gs => if g.1 = key then (g.1, g.2 ++ [p]) :: gs else g :: addToGroup gs key p

/-- A placeholder for the `score.parts[part_idx]` lookup; the indices produced
by `buildVoiceIndexMap` are always in range, so it is never returned. -/
def dummyPart : MPart := { partName := none, hasTranspose := false, measures := [] }

/-- The grouping loop of `generate_midi_files`: resolve every linear index,
extract short-score sub-streams, and split into the named groups and the
`other_entries` list. -/
def collectGroups (s : MScore) (assign : List (String × String)) :
    List (String × List MPart) × List MPart :=
  (buildVoiceIndexMap s).foldl
    (fun acc entry =>
      let voiceType := lookupAssignment assign entry.1
      let rawPart := s.parts.getD entry.2.1 dummyPart
      let partStream :=
        match entry.2.2 with
        | some vid => extractVoiceAsPart rawPart vid
        | none => rawPart
      if voiceType = "other" then (acc.1, acc.2 ++ [partStream])
      else (addToGroup acc.1 voiceType partStream, acc.2))
    ([], [])

def satbList : List String := ["soprano", "alto", "tenor", "bass"]

/-- The guard of the auto-detection fallback: no named category received any
voice, and there is at least one `other` entry. -/
def fallbackFires (s : MScore) (assign : List (String × String)) : Bool :=
  let acc := collectGroups s assign
  !(satbList.any (fun v => (acc.1.find? (fun g => g.1 = v)).isSome)) && !acc.2.isEmpty

/-- `getattr(part_stream, 'partName', None) or "Part"`. -/
def partDisplayName (p : MPart) : String :=
  match p.partName with
  | some n => if n = "" then "Part" else n
  | none => "Part"

/-- The fallback body: re-classify each `other` entry with the full classifier
(part name, detected clef, pitch range, no stem position and no octave
correction) and promote every entry that resolves to a named category. -/
def promoteOthers (cfg : ProcessorConfig) (others : List MPart)
    (groups : List (String × List MPart)) : List (String × List MPart) :=
  others.foldl
    (fun gs partStream =>
      let detected := detectVoiceType cfg (partDisplayName partStream)
        (detectClef partStream) (analyzePitchRange partStream 0) none
      if detected = "other" then gs else addToGroup gs detected partStream)
    groups

/-- The voice-grouping core of `generate_midi_files` (the MIDI serialization
pass-through is not modelled): the grouping loop followed by the conditional
auto-detection fallback. -/
def generateVoiceGroups (cfg : ProcessorConfig) (s : MScore)
    (assign : List (String × String)) : List (String × List MPart) :=
  let acc := collectGroups s assign
  if fallbackFires s assign then promoteOthers cfg acc.2 acc.1 else acc.1

/-! ### Concrete fixtures used by the claim theorems -/

/-- An open-score tenor part: octave treble clef, no notated transposition,
written pitches spanning MIDI 72-86. -/
def tenorTestPart : MPart :=
  { partName := some "Tenor"
    hasTranspose := false
    measures := [{ duration := 4, attrs := [.clefAttr .treble8vb],
                   voices := [], elems := [.noteE [72] 2, .noteE [86] 2] }] }

/-- A combined part whose voice 1 does not fill its measure: the measure
reports duration 4 but voice 1 holds a single quarter note. -/
def shortVoicePart : MPart :=
  { partName := some "P"
    hasTranspose := false
    measures := [{ duration := 4, attrs := [],
                   voices := [{ vid := some 1, elems := [.noteE [60] 1] },
                              { vid := some 2, elems := [.noteE [48] 4] }],
                   elems := [] }] }

/-- A well-formed combined part: every present voice fills its measure, and
voice 1 is absent from the second measure. -/
def wfCombinedPart : MPart :=
  { partName := some "P"
    hasTranspose := false
    measures := [{ duration := 4, attrs := [],
                   voices := [{ vid := some 1, elems := [.noteE [60] 4] },
                              { vid := some 2, elems := [.noteE [50] 4] }],
                   elems := [] },
                 { duration := 3, attrs := [],
                   voices := [{ vid := some 2, elems := [.noteE [50] 3] }],
                   elems := [] }] }

/-- An open part named "Bass" notated in the treble clef with a soprano
pitch range: its name layer and its pitch layer disagree. -/
def bassNamePart : MPart :=
  { partName := some "Bass"
    hasTranspose := false
    measures := [{ duration := 4, attrs := [.clefAttr .treble],
                   voices := [], elems := [.noteE [60] 2, .noteE [81] 2] }] }

/-- A single-part score built from `bassNamePart`. -/
def bassNameScore : MScore := { parts := [bassNamePart] }

/-- An open part with a measure but no note/chord/rest events at all. -/
def emptyEventsPart : MPart :=
  { partName := some "X", hasTranspose := false
    measures := [{ duration := 4, attrs := [], voices := [], elems := [] }] }

/-- A combined part with one voice whose id does not convert to `int`. -/
def badVoicePart : MPart :=
  { partName := some "P"
    hasTranspose := false
    measures := [{ duration := 4, attrs := [],
                   voices := [{ vid := none, elems := [.noteE [99] 4] },
                              { vid := some 1, elems := [.noteE [60] 4] },
                              { vid := some 2, elems := [.noteE [50] 4] }],
                   elems := [] }] }

/-- Delete every voice whose id fails `int` conversion (used to state that
such voices are invisible to the whole pipeline). -/
def dropNonIntVoices (p : MPart) : MPart :=
  { p with
    measures := p.measures.map
      (fun m => { m with voices := m.voices.filter (fun v => v.vid.isSome) }) }

/-- The five classifier outcomes. -/
def voiceTypeList : List String := ["soprano", "alto", "tenor", "bass", "other"]

/-- Shift an optional pitch range by `c` semitones. -/
def shiftRange (c : Int) : Option (Int × Int) → Option (Int × Int)
  | none => none
  | some pr => some (pr.1 + c, pr.2 + c)

/-! ### Helper lemmas -/

theorem defaultConfig_sopranoRange : defaultConfig.sopranoRange = (60, 81) := by decide

theorem defaultConfig_altoRange : defaultConfig.altoRange = (55, 74) := by decide

theorem defaultConfig_tenorRange : defaultConfig.tenorRange = (48, 67) := by decide

theorem defaultConfig_bassRange : defaultConfig.bassRange = (40, 60) := by decide

theorem defaultConfig_overlapThreshold : defaultConfig.overlapThreshold = 3 / 10 := rfl

theorem pitchLayer_6081 : pitchRangeLayer defaultConfig "unknown" (some (60, 81)) = some "soprano" := by
  simp only [pitchRangeLayer, overlapBest, voiceRangesList, defaultConfig_sopranoRange,
    defaultConfig_altoRange, defaultConfig_tenorRange, defaultConfig_bassRange,
    defaultConfig_overlapThreshold, List.foldl, overlapStep, max_def, min_def]
  norm_num

theorem pitchLayer_5574 : pitchRangeLayer defaultConfig "unknown" (some (55, 74)) = some "alto" := by
  simp only [pitchRangeLayer, overlapBest, voiceRangesList, defaultConfig_sopranoRange,
    defaultConfig_altoRange, defaultConfig_tenorRange, defaultConfig_bassRange,
    defaultConfig_overlapThreshold, List.foldl, overlapStep, max_def, min_def]
  norm_num

theorem pitchLayer_4867 : pitchRangeLayer defaultConfig "unknown" (some (48, 67)) = some "tenor" := by
  simp only [pitchRangeLayer, overlapBest, voiceRangesList, defaultConfig_sopranoRange,
    defaultConfig_altoRange, defaultConfig_tenorRange, defaultConfig_bassRange,
    defaultConfig_overlapThreshold, List.foldl, overlapStep, max_def, min_def]
  norm_num

theorem pitchLayer_4060 : pitchRangeLayer defaultConfig "unknown" (some (40, 60)) = some "bass" := by
  simp only [pitchRangeLayer, overlapBest, voiceRangesList, defaultConfig_sopranoRange,
    defaultConfig_altoRange, defaultConfig_tenorRange, defaultConfig_bassRange,
    defaultConfig_overlapThreshold, List.foldl, overlapStep, max_def, min_def]
  norm_num

/-! ### Claim theorems -/

/-- C1: with an empty part name, clef "unknown" and no stem-position hint, a
pitch range equal to a category's configured default range is classified as
exactly that category, and the decision is made by the pitch-range-overlap
layer; the default configured ranges are soprano (60,81), alto (55,74),
tenor (48,67), bass (40,60). -/
theorem satb_default_range_detection :
    voiceRangesList defaultConfig =
      [("soprano", (60, 81)), ("alto", (55, 74)), ("tenor", (48, 67)), ("bass", (40, 60))] ∧
    pitchRangeLayer defaultConfig "unknown" (some (60, 81)) = some "soprano" ∧
    pitchRangeLayer defaultConfig "unknown" (some (55, 74)) = some "alto" ∧
    pitchRangeLayer defaultConfig "unknown" (some (48, 67)) = some "tenor" ∧
    pitchRangeLayer defaultConfig "unknown" (some (40, 60)) = some "bass" ∧
    detectVoiceType defaultConfig "" "unknown" (some (60, 81)) none = "soprano" ∧
    detectVoiceType defaultConfig "" "unknown" (some (55, 74)) none = "alto" ∧
    detectVoiceType defaultConfig "" "unknown" (some (48, 67)) none = "tenor" ∧
    detectVoiceType defaultConfig "" "unknown" (some (40, 60)) none = "bass" := by
  refine ⟨by decide, pitchLayer_6081, pitchLayer_5574, pitchLayer_4867, pitchLayer_4060,
    ?_, ?_, ?_, ?_⟩ <;>
    simp +decide [detectVoiceType, stemPositionLayer, pitchLayer_6081, pitchLayer_5574,
      pitchLayer_4867, pitchLayer_4060]

/-- C2 counterexample: a bare leading "S" followed by a comma — punctuation —
does not match the soprano keyword set (the lookahead accepts only a period,
a digit, or end of string), so the classifier falls through to "other". -/
theorem single_letter_comma_cx :
    nameDetect (normalizeName "S,") = none ∧
    detectVoiceType defaultConfig "S," "unknown" none none = "other" := by
  constructor
  · decide
  · simp +decide [detectVoiceType, stemPositionLayer, pitchRangeLayer, clefDefaults]

/-- C2 (amended): any part name matching the soprano keyword set wins over
every later layer for every configuration, clef, pitch range and stem
position; name="Soprano" with clef "bass" and range (40,52) returns soprano;
"Piano" triggers no name match; a bare leading single letter matches only
when followed by a period, a digit, or end of string (never inside a longer
word, whose second character is a letter). -/
theorem name_layer_priority :
    (∀ (cfg : ProcessorConfig) (name clefType : String) (pr : Option (Int × Int)) (pos : Option Int),
        sopranoNameMatch (normalizeName name) = true →
        detectVoiceType cfg name clefType pr pos = "soprano") ∧
    (∀ (cfg : ProcessorConfig) (clefType : String) (pr : Option (Int × Int)) (pos : Option Int),
        detectVoiceType cfg "Soprano" clefType pr pos = "soprano") ∧
    detectVoiceType defaultConfig "Soprano" "bass" (some (40, 52)) none = "soprano" ∧
    nameDetect (normalizeName "Piano") = none ∧
    (∀ (c x y : Char) (rest : List Char),
        leadingLetter c (x :: y :: rest) = true → (y = '.' ∨ y.isDigit = true)) ∧
    detectVoiceType defaultConfig "S" "bass" (some (40, 60)) none = "soprano" ∧
    detectVoiceType defaultConfig "S." "bass" (some (40, 60)) none = "soprano" ∧
    detectVoiceType defaultConfig "S1" "bass" (some (40, 60)) none = "soprano" ∧
    detectVoiceType defaultConfig "A" "bass" none none = "alto" ∧
    detectVoiceType defaultConfig "T." "treble" none none = "tenor" ∧
    detectVoiceType defaultConfig "B2" "treble" (some (60, 81)) none = "bass" := by
  refine ⟨?_, ?_, by simp +decide [detectVoiceType], by decide, ?_,
    by simp +decide [detectVoiceType], by simp +decide [detectVoiceType],
    by simp +decide [detectVoiceType], by simp +decide [detectVoiceType],
    by simp +decide [detectVoiceType], by simp +decide [detectVoiceType]⟩
  · intro cfg name clefType pr pos h
    simp [detectVoiceType, nameDetect, h]
  · intro cfg clefType pr pos
    rfl
  · intro c x y rest h
    simp only [leadingLetter, Bool.and_eq_true, Bool.or_eq_true, decide_eq_true_eq] at h
    exact h.2

/-- C2 witness: the name-priority rule applied at name "Sop" with a
conflicting bass clef and bass range, and the single-letter lookahead rule
applied at the concrete second character '.'. -/
theorem name_layer_priority_witness :
    detectVoiceType defaultConfig "Sop" "bass" (some (40, 52)) none = "soprano" ∧
    ('.' = '.' ∨ ('.' : Char).isDigit = true) :=
  ⟨name_layer_priority.1 defaultConfig "Sop" "bass" (some (40, 52)) none (by decide),
   name_layer_priority.2.2.2.2.1 's' 's' '.' [] (by decide)⟩

/-- C3 counterexample: with clef "unknown" and stem position 1 the classifier
returns soprano from the stem-position layer; the claim instead requires the
layer to give no opinion there and the pitch-range layer (which would say
tenor for range (48,67)) to be consulted. -/
theorem stem_layer_unknown_clef_cx :
    detectVoiceType defaultConfig "" "unknown" (some (48, 67)) (some 1) = "soprano" ∧
    pitchRangeLayer defaultConfig "unknown" (some (48, 67)) = some "tenor" := by
  refine ⟨?_, pitchLayer_4867⟩
  simp +decide [detectVoiceType, stemPositionLayer]

/-- C3 (amended): when a stem position is supplied and the name layer found
no match, the treble-family clefs *and the "unknown" clef* map position 1 to
soprano and position 2 to alto, the bass clef maps position 1 to tenor and
position 2 to bass, and the tenor-C clef gives tenor for every position; for
any clef outside these five strings the layer gives no opinion and
classification proceeds exactly as if no stem position had been supplied. -/
theorem stem_position_layer_behavior (cfg : ProcessorConfig) (name clefType : String)
    (pr : Option (Int × Int)) (pos : Int)
    (hname : nameDetect (normalizeName name) = none)
    (hclef : clefType ∉ (["treble", "treble8vb", "unknown", "bass", "tenor_c"] : List String)) :
    (detectVoiceType cfg name "treble" pr (some pos) = if pos = 1 then "soprano" else "alto") ∧
    (detectVoiceType cfg name "treble8vb" pr (some pos) = if pos = 1 then "soprano" else "alto") ∧
    (detectVoiceType cfg name "unknown" pr (some pos) = if pos = 1 then "soprano" else "alto") ∧
    (detectVoiceType cfg name "bass" pr (some pos) = if pos = 1 then "tenor" else "bass") ∧
    (detectVoiceType cfg name "tenor_c" pr (some pos) = "tenor") ∧
    (detectVoiceType cfg name clefType pr (some pos) = detectVoiceType cfg name clefType pr none) := by
  have h1 : clefType ≠ "treble" := by intro h; exact hclef (by rw [h]; decide)
  have h2 : clefType ≠ "treble8vb" := by intro h; exact hclef (by rw [h]; decide)
  have h3 : clefType ≠ "unknown" := by intro h; exact hclef (by rw [h]; decide)
  have h4 : clefType ≠ "bass" := by intro h; exact hclef (by rw [h]; decide)
  have h5 : clefType ≠ "tenor_c" := by intro h; exact hclef (by rw [h]; decide)
  refine ⟨?_, ?_, ?_, ?_, ?_, ?_⟩ <;>
    simp [detectVoiceType, hname, stemPositionLayer, h1, h2, h3, h4, h5]

/-- C3 witness: the amended stem-layer behaviour applied at a nameless voice
with stem position 2 under the bass clef (and the "alto" clef as the
no-opinion example). -/
theorem stem_position_layer_behavior_witness :
    detectVoiceType defaultConfig "" "bass" none (some 2) = "bass" := by
  have h := stem_position_layer_behavior defaultConfig "" "alto" none 2 (by decide) (by decide)
  simpa using h.2.2.2.1

/-- C7 counterexample: analyzing a Score with zero parts returns a normal
successful analysis with an empty parts list and `total_parts = 0` — it is
not surfaced as a caller-visible validation failure. -/
theorem analyze_empty_score_cx :
    analyzeMusicxml defaultConfig { parts := [] } = { parts := [], totalParts := 0 } := by
  decide

/-- C7 (amended): analyzing a malformed-in-content Score is silently
tolerated: zero parts yields a normal empty analysis, and a part with zero
pitched events yields a normal entry with a null pitch range classified by
the remaining layers — the analyzer raises no validation error. -/
theorem analyze_degenerate_input_silent_success :
    analyzeMusicxml defaultConfig { parts := [] } = { parts := [], totalParts := 0 } ∧
    analyzeMusicxml defaultConfig { parts := [emptyEventsPart] } =
      { parts := [{ index := 0, partIndex := 0, voiceId := none, name := "X",
                    clefType := "unknown", pitchRange := none, detectedVoice := "other",
                    noteCount := 0, scoreFormat := "open_score" }],
        totalParts := 1 } := by
  decide

/-- C8 counterexample: the configuration string "200,300" denotes an
out-of-range MIDI range, yet `_parse_range` returns it verbatim instead of
falling back to the safe default (0, 127): no bounds check is performed. -/
theorem parse_range_no_bounds_check_cx :
    parseRange "200,300" = (200, 300) ∧ (200, 300) ≠ ((0 : Int), (127 : Int)) := by
  decide

/-- C8 (amended): `_parse_range` is total — construction never fails — and a
string that fails to parse as two comma-separated integers falls back to the
safe default (0, 127) with a logged warning; numeric values are accepted
without any MIDI-bounds validation, and comma-separated fields beyond the
first two are ignored.  The default configuration carries the documented
ranges. -/
theorem parse_range_fallback_behavior :
    parseRange "60,81" = (60, 81) ∧
    parseRange "abc" = (0, 127) ∧
    parseRange "60" = (0, 127) ∧
    parseRange "" = (0, 127) ∧
    parseRange "60;81" = (0, 127) ∧
    parseRange " 60 , 81 " = (60, 81) ∧
    parseRange "60,81,99" = (60, 81) ∧
    parseRange "-5,999" = (-5, 999) ∧
    (∀ s : String, (splitOnComma s.data).length = 1 → parseRange s = (0, 127)) ∧
    (defaultConfig.sopranoRange = (60, 81) ∧ defaultConfig.altoRange = (55, 74) ∧
     defaultConfig.tenorRange = (48, 67) ∧ defaultConfig.bassRange = (40, 60)) := by
  refine ⟨by decide, by decide, by decide, by decide, by decide, by decide, by decide,
    by decide, ?_, by decide, by decide, by decide, by decide⟩
  intro s h
  rcases hsp : splitOnComma s.data with _ | ⟨p, ps⟩
  · simp [parseRange, hsp]
  · rcases ps with _ | ⟨q, qs⟩
    · simp [parseRange, hsp]
    · rw [hsp] at h
      simp at h

/-- C8 witness: the comma-free string "nocomma" takes the IndexError path
and falls back to the default range. -/
theorem parse_range_fallback_behavior_witness :
    parseRange "nocomma" = (0, 127) :=
  parse_range_fallback_behavior.2.2.2.2.2.2.2.2.1 "nocomma" (by decide)

/-! ### Lemmas for the octave correction -/

theorem foldl_min_add (l : List Int) (x c : Int) :
    (l.map (fun p => p + c)).foldl min (x + c) = l.foldl min x + c := by
  induction l generalizing x with
  | nil => rfl
  | cons y ys ih =>
    simp only [List.map_cons, List.foldl_cons]
    rw [min_add_add_right, ih]

theorem foldl_max_add (l : List Int) (x c : Int) :
    (l.map (fun p => p + c)).foldl max (x + c) = l.foldl max x + c := by
  induction l generalizing x with
  | nil => rfl
  | cons y ys ih =>
    simp only [List.map_cons, List.foldl_cons]
    rw [max_add_add_right, ih]

/-- Applying an octave correction shifts the computed pitch range pointwise. -/
theorem analyzePitchRangeFromElements_shift (elems : List MElem) (corr : Int) :
    analyzePitchRangeFromElements elems corr =
      shiftRange corr (analyzePitchRangeFromElements elems 0) := by
  unfold analyzePitchRangeFromElements
  have hid : (concatMap elemPitches elems).map (fun p => p + (0 : Int)) =
      concatMap elemPitches elems := by
    simp
  rw [hid]
  rcases concatMap elemPitches elems with _ | ⟨x, xs⟩
  · rfl
  · simp only [List.map_cons, shiftRange]
    rw [foldl_min_add xs x corr, foldl_max_add xs x corr]

/-- C4: a part detected on the octave-transposing treble clef with no
explicit notated transposition gets octave correction -12, shifting every
pitch — hence its computed range — down 12 semitones before classification;
an explicit transposition yields correction 0; consequently a treble8vb
part with written range (72,86) and no transposition is classified exactly
as a voice whose sounding range is (60,74) under the same clef. -/
theorem octave_correction_sounding_pitch (p : MPart) (name : String)
    (h1 : detectClef p = "treble8vb") (h2 : p.hasTranspose = false) :
    octaveCorrection (detectClef p) p.hasTranspose = -12 ∧
    analyzePitchRange p (octaveCorrection (detectClef p) p.hasTranspose)
      = shiftRange (-12) (analyzePitchRange p 0) ∧
    (∀ clefType : String, octaveCorrection clefType true = 0) ∧
    (analyzePitchRange p 0 = some (72, 86) →
      analyzePitchRange p (octaveCorrection (detectClef p) p.hasTranspose) = some (60, 74) ∧
      detectVoiceType defaultConfig name (detectClef p)
          (analyzePitchRange p (octaveCorrection (detectClef p) p.hasTranspose)) none
        = detectVoiceType defaultConfig name "treble8vb" (some (60, 74)) none) := by
  have hoc : octaveCorrection (detectClef p) p.hasTranspose = -12 := by
    rw [h1, h2]; rfl
  have hshift : analyzePitchRange p (octaveCorrection (detectClef p) p.hasTranspose)
      = shiftRange (-12) (analyzePitchRange p 0) := by
    rw [hoc]
    exact analyzePitchRangeFromElements_shift (partFlatElems p) (-12)
  refine ⟨hoc, hshift, fun clefType => by simp [octaveCorrection], fun h3 => ?_⟩
  have h4 : analyzePitchRange p (octaveCorrection (detectClef p) p.hasTranspose)
      = some (60, 74) := by
    rw [hshift, h3]
    simp [shiftRange]
  exact ⟨h4, by rw [h4, h1]⟩

/-- C4 witness: the concrete treble8vb part with written pitches 72 and 86
and no transposition yields the sounding range (60, 74). -/
theorem octave_correction_sounding_pitch_witness :
    analyzePitchRange tenorTestPart
      (octaveCorrection (detectClef tenorTestPart) tenorTestPart.hasTranspose) = some (60, 74) := by
  have h := octave_correction_sounding_pitch tenorTestPart "Tenor" (by decide) (by decide)
  exact (h.2.2.2 (by decide)).1

/-! ### Lemmas for classifier totality -/

/-- The name layer only ever produces one of the five categories. -/
theorem nameDetect_mem (s : List Char) (v : String) (h : nameDetect s = some v) :
    v ∈ voiceTypeList := by
  unfold nameDetect at h
  split_ifs at h <;> simp_all [voiceTypeList]

/-- The stem-position layer only ever produces one of the five categories. -/
theorem stemPositionLayer_mem (clefType : String) (pos : Option Int) (v : String)
    (h : stemPositionLayer clefType pos = some v) : v ∈ voiceTypeList := by
  unfold stemPositionLayer at h
  rcases pos with _ | p
  · simp at h
  · split_ifs at h <;> simp_all [voiceTypeList] <;> split_ifs at h <;> simp_all

/-- Each scoring-loop step keeps the accumulator or moves to the current entry. -/
theorem overlapStep_fst (minPitch maxPitch : Int) (acc : String × ℚ) (e : String × Int × Int) :
    (overlapStep minPitch maxPitch acc e).1 = e.1 ∨
    (overlapStep minPitch maxPitch acc e).1 = acc.1 := by
  unfold overlapStep
  dsimp only
  split_ifs <;> simp

/-- The scoring loop ends on one of the five categories for every configuration. -/
theorem overlapBest_fst_mem (cfg : ProcessorConfig) (a b : Int) :
    (overlapBest cfg a b).1 ∈ voiceTypeList := by
  have step_mem : ∀ (acc : String × ℚ) (e : String × Int × Int),
      acc.1 ∈ voiceTypeList → e.1 ∈ voiceTypeList →
      (overlapStep a b acc e).1 ∈ voiceTypeList := by
    intro acc e hacc he
    rcases overlapStep_fst a b acc e with h | h <;> rw [h] <;> assumption
  unfold overlapBest voiceRangesList
  simp only [List.foldl]
  exact step_mem _ _
    (step_mem _ _
      (step_mem _ _
        (step_mem _ _ (show "other" ∈ voiceTypeList by decide)
          (show "soprano" ∈ voiceTypeList by decide))
        (show "alto" ∈ voiceTypeList by decide))
      (show "tenor" ∈ voiceTypeList by decide))
    (show "bass" ∈ voiceTypeList by decide)

/-- The pitch-range layer only ever produces one of the five categories. -/
theorem pitchRangeLayer_mem (cfg : ProcessorConfig) (clefType : String)
    (pr : Option (Int × Int)) (v : String)
    (h : pitchRangeLayer cfg clefType pr = some v) : v ∈ voiceTypeList := by
  rcases pr with _ | pr
  · simp [pitchRangeLayer] at h
  · simp only [pitchRangeLayer] at h
    split_ifs at h <;> simp_all <;> subst h <;> exact overlapBest_fst_mem cfg pr.1 pr.2

/-- The clef fallback only ever produces one of the five categories. -/
theorem clefDefaults_mem (clefType : String) : clefDefaults clefType ∈ voiceTypeList := by
  unfold clefDefaults
  split_ifs <;> decide

/-- C9: the classifier is a total function returning exactly one of the five
category strings for every configuration, part name, clef string, optional
(possibly degenerate or inverted) pitch range and optional stem position;
and whenever the overlap guard that protects the score division holds, the
denominator max - min + 1 is at least 1, so the division is never by zero. -/
theorem classifier_totality_and_safety :
    (∀ (cfg : ProcessorConfig) (name clefType : String) (pr : Option (Int × Int)) (pos : Option Int),
        detectVoiceType cfg name clefType pr pos ∈ voiceTypeList) ∧
    (∀ (minPitch maxPitch : Int) (e : String × Int × Int),
        max minPitch e.2.1 ≤ min maxPitch e.2.2 →
        (1 : ℚ) ≤ ((maxPitch - minPitch : Int) : ℚ) + 1) := by
  constructor
  · intro cfg name clefType pr pos
    unfold detectVoiceType
    rcases h1 : nameDetect (normalizeName name) with _ | v1
    · rcases h2 : stemPositionLayer clefType pos with _ | v2
      · rcases h3 : pitchRangeLayer cfg clefType pr with _ | v3
        · exact clefDefaults_mem clefType
        · exact pitchRangeLayer_mem cfg clefType pr v3 h3
      · exact stemPositionLayer_mem clefType pos v2 h2
    · exact nameDetect_mem (normalizeName name) v1 h1
  · intro minPitch maxPitch e h
    have h1 : minPitch ≤ maxPitch :=
      le_trans (le_trans (le_max_left _ _) h) (min_le_left _ _)
    have h2 : (0 : Int) ≤ maxPitch - minPitch := by omega
    have h3 : (0 : ℚ) ≤ ((maxPitch - minPitch : Int) : ℚ) := by exact_mod_cast h2
    linarith

/-- C9 witness: totality applied at an inverted pitch range (50, 40), and
the denominator bound applied at the soprano entry with range (60, 81). -/
theorem classifier_totality_and_safety_witness :
    detectVoiceType defaultConfig "X" "bass" (some (50, 40)) none ∈ voiceTypeList ∧
    (1 : ℚ) ≤ (((81 : Int) - 60 : Int) : ℚ) + 1 :=
  ⟨classifier_totality_and_safety.1 defaultConfig "X" "bass" (some (50, 40)) none,
   classifier_totality_and_safety.2 60 81 ("soprano", 60, 81) (by decide)⟩

/-! ### Lemmas for ignoring non-integer voice ids -/

theorem concatMap_map (f : β → List γ) (g : α → β) (l : List α) :
    concatMap f (l.map g) = concatMap (fun x => f (g x)) l := by
  induction l with
  | nil => rfl
  | cons x xs ih => simp [concatMap, ih]

theorem mem_concatMap (f : α → List β) (l : List α) (x : β) :
    x ∈ concatMap f l ↔ ∃ a ∈ l, x ∈ f a := by
  induction l with
  | nil => simp [concatMap]
  | cons y ys ih => simp [concatMap, ih]

theorem mem_insertSortedUnique (x y : Int) (l : List Int) :
    x ∈ insertSortedUnique y l ↔ x = y ∨ x ∈ l := by
  induction l with
  | nil => simp [insertSortedUnique]
  | cons z zs ih =>
    unfold insertSortedUnique
    split_ifs with h1 h2
    · subst h1
      constructor
      · intro h
        exact Or.inr h
      · rintro (h | h)
        · simp [h]
        · exact h
    · simp
    · simp [ih]
      tauto

theorem mem_sortedUnique (x : Int) (l : List Int) :
    x ∈ sortedUnique l ↔ x ∈ l := by
  induction l with
  | nil => simp [sortedUnique]
  | cons y ys ih =>
    show x ∈ insertSortedUnique y (sortedUnique ys) ↔ _
    rw [mem_insertSortedUnique, ih]
    simp

theorem filterMap_vid_filter (l : List MVoice) :
    (l.filter (fun v => v.vid.isSome)).filterMap (fun v => v.vid) =
      l.filterMap (fun v => v.vid) := by
  induction l with
  | nil => rfl
  | cons v vs ih =>
    rcases hv : v.vid with _ | k <;> simp [List.filter, List.filterMap, hv, ih]

theorem find?_vid_filter (l : List MVoice) (n : Int) :
    (l.filter (fun v => v.vid.isSome)).find? (fun v => v.vid = some n) =
      l.find? (fun v => v.vid = some n) := by
  induction l with
  | nil => rfl
  | cons v vs ih =>
    rcases hv : v.vid with _ | k
    · simp [List.filter, List.find?, hv, ih]
    · by_cases hk : k = n <;> simp [List.filter, List.find?, hv, hk, ih]

theorem getVoiceIds_drop (p : MPart) :
    getVoiceIds (dropNonIntVoices p) = getVoiceIds p := by
  unfold getVoiceIds dropNonIntVoices
  rw [concatMap_map]
  congr 1
  induction p.measures with
  | nil => rfl
  | cons m ms ih => simp [concatMap, ih, filterMap_vid_filter]

theorem findVoice_drop (m : MMeasure) (n : Int) :
    findVoice { m with voices := m.voices.filter (fun v => v.vid.isSome) } n =
      findVoice m n := by
  unfold findVoice
  exact find?_vid_filter m.voices n

theorem extractVoiceMeasure_drop (vid : Int) (m : MMeasure) :
    extractVoiceMeasure vid { m with voices := m.voices.filter (fun v => v.vid.isSome) } =
      extractVoiceMeasure vid m := by
  unfold extractVoiceMeasure
  rw [findVoice_drop]
  rfl

theorem extract_drop (p : MPart) (vid : Int) :
    extractVoiceAsPart (dropNonIntVoices p) vid = extractVoiceAsPart p vid := by
  unfold extractVoiceAsPart dropNonIntVoices
  simp only [List.map_map]
  congr 1
  apply List.map_congr_left
  intro m _
  exact extractVoiceMeasure_drop vid m

theorem getVoiceFlatNotes_drop (p : MPart) (vid : Int) :
    getVoiceFlatNotes (dropNonIntVoices p) vid = getVoiceFlatNotes p vid := by
  unfold getVoiceFlatNotes dropNonIntVoices
  rw [concatMap_map]
  congr 1
  funext m
  rw [findVoice_drop]

theorem buildVoiceIndexMapAux_drop (parts : List MPart) (li pi : Nat) :
    buildVoiceIndexMapAux li pi (parts.map dropNonIntVoices) =
      buildVoiceIndexMapAux li pi parts := by
  induction parts generalizing li pi with
  | nil => rfl
  | cons p ps ih =>
    simp only [List.map_cons, buildVoiceIndexMapAux, getVoiceIds_drop]
    split_ifs <;> rw [ih]

/-- C10: a voice whose id does not convert to an integer is invisible
everywhere and never raises: deleting all such voices changes neither the
sorted voice-id list, nor the linear-index map, nor any extracted per-voice
part, nor any per-voice note list; membership in the voice-id list is
exactly determined by the convertible ids present; and on the concrete part
holding a non-convertible voice with a note at pitch 99, that note reaches
no output. -/
theorem non_integer_voice_ids_ignored (p : MPart) (s : MScore) (vid n : Int) :
    getVoiceIds (dropNonIntVoices p) = getVoiceIds p ∧
    (n ∈ getVoiceIds p ↔ ∃ m ∈ p.measures, ∃ v ∈ m.voices, v.vid = some n) ∧
    buildVoiceIndexMap { parts := s.parts.map dropNonIntVoices } = buildVoiceIndexMap s ∧
    extractVoiceAsPart (dropNonIntVoices p) vid = extractVoiceAsPart p vid ∧
    getVoiceFlatNotes (dropNonIntVoices p) vid = getVoiceFlatNotes p vid ∧
    getVoiceIds badVoicePart = [1, 2] ∧
    buildVoiceIndexMap { parts := [badVoicePart] } = [("0", 0, some 1), ("1", 0, some 2)] ∧
    (extractVoiceAsPart badVoicePart 1).measures.map (fun m => m.elems) =
      [[MElem.noteE [60] 4]] := by
  refine ⟨getVoiceIds_drop p, ?_, buildVoiceIndexMapAux_drop s.parts 0 0,
    extract_drop p vid, getVoiceFlatNotes_drop p vid, by decide, by decide, by decide⟩
  unfold getVoiceIds
  rw [mem_sortedUnique, mem_concatMap]
  constructor
  · rintro ⟨m, hm, hv⟩
    rcases List.mem_filterMap.mp hv with ⟨v, hvmem, hvid⟩
    exact ⟨m, hm, v, hvmem, hvid⟩
  · rintro ⟨m, hm, v, hvmem, hvid⟩
    exact ⟨m, hm, List.mem_filterMap.mpr ⟨v, hvmem, hvid⟩⟩

/-! ### Lemmas for the extraction grid -/

/-- When every present voice fills its measure and the measure duration is
known, extraction preserves each measure's duration. -/
theorem extractVoiceMeasure_duration (vid : Int) (m : MMeasure)
    (hv : ∀ v ∈ m.voices, elemsDur v.elems = m.duration) (hd : m.duration ≠ 0) :
    (extractVoiceMeasure vid m).duration = m.duration := by
  unfold extractVoiceMeasure
  rcases hf : findVoice m vid with _ | v
  · simp [fillerDur, hd]
  · have hvmem : v ∈ m.voices := List.mem_of_find?_eq_some hf
    by_cases he : v.elems.isEmpty <;> simp [he, fillerDur, hd, hv v hvmem]

/-- C5 counterexample: in a two-voice part whose measure reports duration 4
while voice 1 holds only a quarter note, the extracted voice-1 stream totals
1 quarter-note beat against the source part's 4 — the claimed unconditional
total-duration equality fails on the code. -/
theorem extract_duration_invariant_cx :
    getVoiceIds shortVoicePart = [1, 2] ∧
    partTotalDuration shortVoicePart = 4 ∧
    partTotalDuration (extractVoiceAsPart shortVoicePart 1) = 1 := by
  refine ⟨by decide, ?_, ?_⟩
  · simp [partTotalDuration, shortVoicePart]
  · simp +decide [partTotalDuration, extractVoiceAsPart, shortVoicePart, extractVoiceMeasure,
      findVoice, elemsDur, elemDur, fillerDur, List.find?]

/-- C5 (amended): for every source part and voice id the extracted part has
exactly as many measures, in the same order (it is the measure-wise image of
the source); a measure lacking the voice yields a single rest spanning the
measure's reported duration, or 4 quarter-note beats when that duration is
zero/unknown; and the extracted stream has the same total duration as its
source part *provided* every present voice fills its measure's reported
duration and no measure duration is zero. -/
theorem extract_preserves_measure_grid (p : MPart) (vid : Int) :
    (extractVoiceAsPart p vid).measures.length = p.measures.length ∧
    (extractVoiceAsPart p vid).measures = p.measures.map (extractVoiceMeasure vid) ∧
    (∀ m ∈ p.measures, findVoice m vid = none →
      extractVoiceMeasure vid m =
        { duration := if m.duration = 0 then 4 else m.duration,
          attrs := copyStructuralAttrs m.attrs, voices := [],
          elems := [MElem.restE (if m.duration = 0 then 4 else m.duration)] }) ∧
    ((∀ m ∈ p.measures, (∀ v ∈ m.voices, elemsDur v.elems = m.duration) ∧ m.duration ≠ 0) →
      partTotalDuration (extractVoiceAsPart p vid) = partTotalDuration p) := by
  refine ⟨by simp [extractVoiceAsPart], rfl, ?_, ?_⟩
  · intro m hm hf
    unfold extractVoiceMeasure
    rw [hf]
    rfl
  · intro hw
    unfold partTotalDuration extractVoiceAsPart
    simp only [List.map_map]
    congr 1
    apply List.map_congr_left
    intro m hm
    exact extractVoiceMeasure_duration vid m (hw m hm).1 (hw m hm).2

/-- C5 witness: on the well-formed two-measure part (voice 1 absent from the
second measure, every present voice filling its measure) the extracted
voice-1 stream has the same total duration as the source. -/
theorem extract_preserves_measure_grid_witness :
    partTotalDuration (extractVoiceAsPart wfCombinedPart 1) = partTotalDuration wfCombinedPart := by
  have h := extract_preserves_measure_grid wfCombinedPart 1
  apply h.2.2.2
  intro m hm
  simp [wfCombinedPart] at hm
  rcases hm with hm | hm <;> subst hm <;> constructor <;> norm_num [elemsDur, elemDur]

/-- C6 counterexample: with an empty assignment, the single part named
"Bass" (treble clef, observed range (60,81)) lands in `other_entries`, the
fallback fires, and it is promoted into the *bass* group because the full
classifier's name layer matches "Bass" — whereas layers 3 and 4 alone
(pitch-range overlap, clef fallback) both classify this voice as soprano.
The name layer therefore *is* consulted during the fallback. -/
theorem midi_fallback_name_layer_cx :
    generateVoiceGroups defaultConfig bassNameScore [] = [("bass", [bassNamePart])] ∧
    detectVoiceType defaultConfig "Bass" "treble" (some (60, 81)) none = "bass" ∧
    detectClef bassNamePart = "treble" ∧
    analyzePitchRange bassNamePart 0 = some (60, 81) ∧
    pitchRangeLayer defaultConfig "treble" (some (60, 81)) = some "soprano" ∧
    clefDefaults "treble" = "soprano" := by
  refine ⟨by decide, by decide, by decide, by decide, ?_, by decide⟩
  simp only [pitchRangeLayer, overlapBest, voiceRangesList, defaultConfig_sopranoRange,
    defaultConfig_altoRange, defaultConfig_tenorRange, defaultConfig_bassRange,
    defaultConfig_overlapThreshold, List.foldl, overlapStep, max_def, min_def]
  norm_num

/-- C6 (amended): the MIDI-generation fallback runs if and only if no named
category received any voice and at least one voice was assigned `other`;
when it runs, each `other` entry is re-classified with the *full* classifier
— part name, detected clef and observed pitch range, with no stem position —
and is promoted exactly when the result is a named category. -/
theorem midi_fallback_full_classifier (cfg : ProcessorConfig) (s : MScore)
    (assign : List (String × String)) (gs : List (String × List MPart)) (p : MPart) :
    generateVoiceGroups cfg s assign =
      (if fallbackFires s assign then
        promoteOthers cfg (collectGroups s assign).2 (collectGroups s assign).1
      else (collectGroups s assign).1) ∧
    (fallbackFires s assign = true ↔
      ((∀ v ∈ satbList, (collectGroups s assign).1.find? (fun g => g.1 = v) = none) ∧
       (collectGroups s assign).2 ≠ [])) ∧
    promoteOthers cfg [] gs = gs ∧
    promoteOthers cfg [p] gs =
      (if detectVoiceType cfg (partDisplayName p) (detectClef p) (analyzePitchRange p 0) none
          = "other" then gs
       else addToGroup gs
         (detectVoiceType cfg (partDisplayName p) (detectClef p) (analyzePitchRange p 0) none) p) := by
  refine ⟨rfl, ?_, rfl, ?_⟩
  · simp only [fallbackFires, Bool.and_eq_true, Bool.not_eq_true', List.any_eq_false,
      Option.not_isSome_iff_eq_none, List.isEmpty_iff, ne_eq, List.find?_eq_none,
      decide_eq_true_eq]
    aesop
  · simp [promoteOthers]
